import Mathlib

/-!
Shallow embedding of the ElEditor sync API (src/routes/sync.ts) in Lean 4.

The sync engine stores, per user, current documents keyed by
(user_id, thread_id) in table `user_data`, immutable snapshots in table
`data_backups`, and per-user aggregates in table `storage_stats`.
Handlers are modelled as pure functions over an explicit database state.
Each transactional handler additionally takes a `Failures` record saying
which of its fallible store statements fail, so that rollback behaviour
can be stated.  The database is modelled as a single-connection
transactional store with PostgreSQL semantics: a failed statement inside
an open transaction aborts it, and a COMMIT issued on an aborted
transaction rolls everything back.  In the embedding this shows up as the
operation returning the *original* state whenever any in-transaction
statement failed.
-/

namespace ElEditor

/-- JSON values as sent in request bodies and stored in `content` columns. -/
inductive Json where
  | null
  | bool (b : Bool)
  | num (n : Int)
  | str (s : String)
  | arr (elems : List Json)
  | obj (fields : List (String × Json))

/-- JavaScript truthiness of a JSON value: `null`, `false`, `0` and `""`
are falsy; arrays and objects are always truthy. -/
def Json.truthy : Json → Bool
  | .null => false
  | .bool b => b
  | .num n => n != 0
  | .str s => s != ""
  | .arr _ => true
  | .obj _ => true

mutual

/-- Serialization of a JSON value, used to model `LENGTH(content::text)`
in the storage-stats recomputation (string escaping is not modelled; no
claim depends on the exact byte count). -/
def Json.render : Json → String
  | .null => "null"
  | .bool true => "true"
  | .bool false => "false"
  | .num n => toString n
  | .str s => "\"" ++ s ++ "\""
  | .arr elems => "[" ++ Json.renderElems elems ++ "]"
  | .obj fields => "\x7b" ++ Json.renderFields fields ++ "\x7d"

/-- Comma-separated rendering of array elements. -/
def Json.renderElems : List Json → String
  | [] => ""
  | [x] => Json.render x
  | x :: xs => Json.render x ++ "," ++ Json.renderElems xs

/-- Comma-separated rendering of object fields. -/
def Json.renderFields : List (String × Json) → String
  | [] => ""
  | [p] => "\"" ++ p.1 ++ "\":" ++ Json.render p.2
  | p :: ps => "\"" ++ p.1 ++ "\":" ++ Json.render p.2 ++ "," ++ Json.renderFields ps

end

/-- A row of the `user_data` table, minus its key `(user_id, thread_id)`. -/
structure Doc where
  data_type : String
  content : Json
  version : Int
  updated_at : Nat

/-- A row of the `data_backups` table. -/
structure Backup where
  id : Nat
  user_id : String
  thread_id : String
  data_type : String
  content : Json
  version : Int
  created_at : Nat

/-- A row of the `storage_stats` table, minus its key `user_id`. -/
structure Stats where
  total_size_bytes : Nat
  thread_count : Nat
  last_updated : Nat

/-- The whole store: the three tables plus the backup id sequence.
`user_data` holds at most one row per `(user, thread)` key. -/
structure DB where
  user_data : List (String × String × Doc)
  data_backups : List Backup
  storage_stats : List (String × Stats)
  nextBackupId : Nat

/-- Lookup modelling `SELECT * FROM user_data WHERE user_id = $1 AND thread_id = $2`. -/
def findDoc (db : DB) (u t : String) : Option Doc :=
  (db.user_data.find? (fun r => r.1 == u && r.2.1 == t)).map (fun r => r.2.2)

/-- Upsert modelling `INSERT INTO user_data ... ON CONFLICT (user_id, thread_id) DO UPDATE ...`:
the row for the key is replaced if present, inserted otherwise. -/
def setDoc (db : DB) (u t : String) (d : Doc) : DB :=
  { db with user_data :=
      (u, t, d) :: db.user_data.filter (fun r => !(r.1 == u && r.2.1 == t)) }

/-- Deletion modelling `DELETE FROM user_data WHERE user_id = $1 AND thread_id = $2`. -/
def delDoc (db : DB) (u t : String) : DB :=
  { db with user_data := db.user_data.filter (fun r => !(r.1 == u && r.2.1 == t)) }

/-- Insert modelling `INSERT INTO data_backups (user_id, thread_id, data_type, content, version, created_at)`;
the id comes from the table's sequence. -/
def addBackup (db : DB) (u t dt : String) (c : Json) (v : Int) (created : Nat) : DB :=
  { db with
      data_backups := db.data_backups ++
        [⟨db.nextBackupId, u, t, dt, c, v, created⟩],
      nextBackupId := db.nextBackupId + 1 }

/-- Model of `updateStorageStats`: recompute `SUM(LENGTH(content::text))`
and `COUNT(*)` over the user's documents and upsert the user's stats row. -/
def updateStats (db : DB) (u : String) (now : Nat) : DB :=
  let rows := db.user_data.filter (fun r => r.1 == u)
  let total := (rows.map (fun r => (Json.render r.2.2.content).length)).sum
  { db with storage_stats :=
      (u, ⟨total, rows.length, now⟩) :: db.storage_stats.filter (fun r => !(r.1 == u)) }

/-- Which fallible store statements inside a handler's transaction fail.
`stats` covers any statement issued inside `updateStorageStats` (that
function catches its own errors, so the two statements there are
indistinguishable to the caller). -/
structure Failures where
  backupInsert : Bool
  docWrite : Bool
  stats : Bool

/-- The run in which every statement succeeds. -/
def noFail : Failures := ⟨false, false, false⟩

/-- Responses of `POST /api/sync` (save). -/
inductive SaveResult where
  | missingFields
  | invalidDataType
  | conflict (serverVersion : Int) (serverData : Json) (serverUpdatedAt : Nat)
  | ok (version : Int) (updated_at : Nat)
  | serverError

/-- The valid values of `dataType`. -/
def validDataTypes : List String := ["spreadsheet", "document", "both"]

/-- Model of the `POST /api/sync` handler.  `content = none` models an
absent body field; truthiness models the Javascript check
`if (!threadId || !dataType || !content)`.  The conflict check runs
before the transaction.  On the success path the transaction inserts a
backup of the prior row (if any), upserts the document with the
caller-supplied version, and recomputes stats; a failure of the backup
insert or the upsert throws, triggering ROLLBACK and a 500, while a
failure inside `updateStorageStats` is caught there, so the handler
still issues COMMIT and returns success — but the aborted transaction
commits nothing, leaving the state unchanged. -/
def save (db : DB) (f : Failures) (userId threadId dataType : String)
    (content : Option Json) (version : Int) (force : Bool) (now : Nat) :
    SaveResult × DB :=
  if threadId == "" || dataType == "" || !((content.map Json.truthy).getD false) then
    (.missingFields, db)
  else if !(validDataTypes.contains dataType) then
    (.invalidDataType, db)
  else
    match findDoc db userId threadId with
    | some existing =>
      if !force && existing.version > version then
        (.conflict existing.version existing.content existing.updated_at, db)
      else if f.backupInsert then (.serverError, db)
      else if f.docWrite then (.serverError, db)
      else
        let p1 := addBackup db userId threadId existing.data_type existing.content
          existing.version existing.updated_at
        let p2 := setDoc p1 userId threadId
          ⟨dataType, content.getD .null, version, now⟩
        if f.stats then (.ok version now, db)
        else (.ok version now, updateStats p2 userId now)
    | none =>
      if f.docWrite then (.serverError, db)
      else
        let p2 := setDoc db userId threadId
          ⟨dataType, content.getD .null, version, now⟩
        if f.stats then (.ok version now, db)
        else (.ok version now, updateStats p2 userId now)

/-- Responses of `GET /api/sync/:threadId` (load). -/
inductive LoadResult where
  | invalidDataType
  | notFound
  | ok (data : Json) (version : Int) (updated_at : Nat) (data_type : String)

/-- Model of the `GET /api/sync/:threadId` handler: validate `dataType`,
then return the row keyed by `(user, thread)`; the query never mentions
`dataType`. -/
def load (db : DB) (userId threadId dataType : String) : LoadResult :=
  if !(validDataTypes.contains dataType) then .invalidDataType
  else
    match findDoc db userId threadId with
    | none => .notFound
    | some d => .ok d.content d.version d.updated_at d.data_type

/-- Payload of `GET /api/sync/:threadId/history`. -/
structure HistoryData where
  current : Option Doc
  history : List Backup

/-- Insertion into a list already sorted by `created_at` descending. -/
def insertByCreatedDesc (b : Backup) : List Backup → List Backup
  | [] => [b]
  | x :: xs =>
    if b.created_at ≥ x.created_at then b :: x :: xs
    else x :: insertByCreatedDesc b xs

/-- Sort modelling `ORDER BY created_at DESC`. -/
def sortByCreatedDesc (l : List Backup) : List Backup :=
  l.foldr insertByCreatedDesc []

/-- Model of the `GET /api/sync/:threadId/history` handler: the current
row (or null) plus up to `limit` backups for the key, newest first.  The
handler has no not-found branch: an unknown thread yields
`⟨none, []⟩`. -/
def history (db : DB) (userId threadId : String) (limit : Nat) : HistoryData :=
  { current := findDoc db userId threadId,
    history :=
      (sortByCreatedDesc (db.data_backups.filter
        (fun b => b.user_id == userId && b.thread_id == threadId))).take limit }

/-- Responses of `POST /api/sync/:threadId/restore`. -/
inductive RestoreResult where
  | missingBackupId
  | backupNotFound
  | ok (version : Int) (restored_at : Nat)
  | serverError
deriving DecidableEq

/-- Model of the `POST /api/sync/:threadId/restore` handler.  The backup
is fetched by `(id, user)` (the thread is not part of the lookup).  In
the transaction: the current row, if present, is first snapshotted into
a new backup; then the upsert writes the backup's data, with version
`backup.version` on the insert branch and `backup.version + 1` on the
update branch (`EXCLUDED.version + 1`); then stats are recomputed.  The
response reports `backupData.version` and a fresh timestamp.  Failure
handling matches `save`.  `backupId = some 0` is rejected like a missing
field because the Javascript check is `if (!backupId)`. -/
def restore (db : DB) (f : Failures) (userId threadId : String)
    (backupId : Option Nat) (now : Nat) : RestoreResult × DB :=
  match backupId with
  | none => (.missingBackupId, db)
  | some bid =>
    if bid == 0 then (.missingBackupId, db)
    else
      match db.data_backups.find? (fun b => b.id == bid && b.user_id == userId) with
      | none => (.backupNotFound, db)
      | some bk =>
        match findDoc db userId threadId with
        | some current =>
          if f.backupInsert then (.serverError, db)
          else if f.docWrite then (.serverError, db)
          else
            let p1 := addBackup db userId threadId current.data_type current.content
              current.version now
            let p2 := setDoc p1 userId threadId
              ⟨bk.data_type, bk.content, bk.version + 1, now⟩
            if f.stats then (.ok bk.version now, db)
            else (.ok bk.version now, updateStats p2 userId now)
        | none =>
          if f.docWrite then (.serverError, db)
          else
            let p2 := setDoc db userId threadId
              ⟨bk.data_type, bk.content, bk.version, now⟩
            if f.stats then (.ok bk.version now, db)
            else (.ok bk.version now, updateStats p2 userId now)

/-- Responses of `DELETE /api/sync/:threadId`: the success payload is the
constant `{success: true, message: 'Data deleted successfully'}` — it
carries no information about whether a row existed. -/
inductive DeleteResult where
  | ok
  | serverError
deriving DecidableEq

/-- Model of the `DELETE /api/sync/:threadId` handler: snapshot the
current row into a backup if present, delete the row, recompute stats.
Deleting an absent thread follows the same path minus the backup insert
and succeeds. -/
def deleteThread (db : DB) (f : Failures) (userId threadId : String) (now : Nat) :
    DeleteResult × DB :=
  match findDoc db userId threadId with
  | some current =>
    if f.backupInsert then (.serverError, db)
    else if f.docWrite then (.serverError, db)
    else
      let p1 := addBackup db userId threadId current.data_type current.content
        current.version now
      let p2 := delDoc p1 userId threadId
      if f.stats then (.ok, db)
      else (.ok, updateStats p2 userId now)
  | none =>
    if f.docWrite then (.serverError, db)
    else
      let p2 := delDoc db userId threadId
      if f.stats then (.ok, db)
      else (.ok, updateStats p2 userId now)

/-- Payload of `GET /api/sync/stats`. -/
structure StatsData where
  storageStats : Option Stats
  threadCount : Nat
  backupCount : Nat

/-- Model of the `GET /api/sync/stats` handler body: the user's stats row
(or null), the count of the user's current documents, and the count of
the user's backups. -/
def getStats (db : DB) (u : String) : StatsData :=
  { storageStats := (db.storage_stats.find? (fun r => r.1 == u)).map (fun r => r.2),
    threadCount := (db.user_data.filter (fun r => r.1 == u)).length,
    backupCount := (db.data_backups.filter (fun b => b.user_id == u)).length }

/-- HTTP methods used by the sync router. -/
inductive Method where
  | GET
  | POST
  | DELETE
deriving DecidableEq

/-- A path-pattern segment: a literal or a named parameter. -/
inductive Seg where
  | lit (s : String)
  | param (s : String)

/-- The handlers registered on the sync router. -/
inductive SyncRoute where
  | saveRoute
  | loadRoute
  | historyRoute
  | restoreRoute
  | removeRoute
  | statsRoute
deriving DecidableEq

/-- Express path matching: a literal segment must equal the path segment,
a parameter segment matches any one segment, and lengths must agree. -/
def matchSegs : List Seg → List String → Bool
  | [], [] => true
  | .lit s :: ps, x :: xs => s == x && matchSegs ps xs
  | .param _ :: ps, _ :: xs => matchSegs ps xs
  | _, _ => false

/-- The sync router's routes in registration order (src/routes/sync.ts):
`POST /`, `GET /:threadId`, `GET /:threadId/history`,
`POST /:threadId/restore`, `DELETE /:threadId`, and last `GET /stats`. -/
def syncRouter : List (Method × List Seg × SyncRoute) :=
  [ (.POST, [], .saveRoute),
    (.GET, [.param "threadId"], .loadRoute),
    (.GET, [.param "threadId", .lit "history"], .historyRoute),
    (.POST, [.param "threadId", .lit "restore"], .restoreRoute),
    (.DELETE, [.param "threadId"], .removeRoute),
    (.GET, [.lit "stats"], .statsRoute) ]

/-- Express dispatch: the first registered route whose method and pattern
match wins. -/
def dispatch (m : Method) (path : List String) : Option SyncRoute :=
  (syncRouter.find? (fun r => r.1 == m && matchSegs r.2.1 path)).map (fun r => r.2.2)

/-! Concrete states used by witnesses and counterexamples. -/

/-- A sample stored document with version 3. -/
def docA : Doc := ⟨"document", .obj [("a", .num 1)], 3, 10⟩

/-- A store holding one document for `("u1", "t1")`. -/
def dbOne : DB := ⟨[("u1", "t1", docA)], [], [], 1⟩

/-- The empty store. -/
def dbEmpty : DB := ⟨[], [], [], 1⟩

/-- A sample backup row with id 1 and version 1. -/
def bkA : Backup := ⟨1, "u1", "t1", "document", .obj [("a", .num 1)], 1, 4⟩

/-- A store holding a current document and one backup. -/
def dbRestore : DB := ⟨[("u1", "t1", docA)], [bkA], [], 2⟩

/-- A store holding one backup but no current document. -/
def dbRestoreEmpty : DB := ⟨[], [bkA], [], 2⟩

/-- A failure configuration where only the statements inside
`updateStorageStats` fail. -/
def statsFail : Failures := ⟨false, false, true⟩

/-! Projection lemmas for the store primitives. -/

@[simp]
theorem updateStats_user_data (db : DB) (u : String) (now : Nat) :
    (updateStats db u now).user_data = db.user_data := rfl

@[simp]
theorem updateStats_data_backups (db : DB) (u : String) (now : Nat) :
    (updateStats db u now).data_backups = db.data_backups := rfl

@[simp]
theorem updateStats_nextBackupId (db : DB) (u : String) (now : Nat) :
    (updateStats db u now).nextBackupId = db.nextBackupId := rfl

@[simp]
theorem setDoc_data_backups (db : DB) (u t : String) (d : Doc) :
    (setDoc db u t d).data_backups = db.data_backups := rfl

@[simp]
theorem setDoc_nextBackupId (db : DB) (u t : String) (d : Doc) :
    (setDoc db u t d).nextBackupId = db.nextBackupId := rfl

@[simp]
theorem delDoc_data_backups (db : DB) (u t : String) :
    (delDoc db u t).data_backups = db.data_backups := rfl

@[simp]
theorem delDoc_nextBackupId (db : DB) (u t : String) :
    (delDoc db u t).nextBackupId = db.nextBackupId := rfl

@[simp]
theorem addBackup_data_backups (db : DB) (u t dt : String) (c : Json) (v : Int) (cr : Nat) :
    (addBackup db u t dt c v cr).data_backups =
      db.data_backups ++ [⟨db.nextBackupId, u, t, dt, c, v, cr⟩] := rfl

@[simp]
theorem addBackup_nextBackupId (db : DB) (u t dt : String) (c : Json) (v : Int) (cr : Nat) :
    (addBackup db u t dt c v cr).nextBackupId = db.nextBackupId + 1 := rfl

@[simp]
theorem findDoc_updateStats (db : DB) (u' : String) (now : Nat) (u t : String) :
    findDoc (updateStats db u' now) u t = findDoc db u t := rfl

@[simp]
theorem findDoc_addBackup (db : DB) (u' t' dt : String) (c : Json) (v : Int) (cr : Nat)
    (u t : String) :
    findDoc (addBackup db u' t' dt c v cr) u t = findDoc db u t := rfl

@[simp]
theorem findDoc_setDoc (db : DB) (u t : String) (d : Doc) :
    findDoc (setDoc db u t d) u t = some d := by
  simp [findDoc, setDoc, List.find?]

/-- A `find?` over a list from which every matching element was filtered
out finds nothing. -/
theorem find?_filter_not {α : Type} (p : α → Bool) (l : List α) :
    (l.filter (fun a => !(p a))).find? p = none := by
  induction l with
  | nil => rfl
  | cons a l ih =>
    by_cases h : p a = true
    · simp [List.filter_cons, h, ih]
    · simp only [Bool.not_eq_true] at h
      simp [List.filter_cons, h, List.find?_cons, ih]

@[simp]
theorem findDoc_delDoc (db : DB) (u t : String) :
    findDoc (delDoc db u t) u t = none := by
  show ((db.user_data.filter fun r => !(r.1 == u && r.2.1 == t)).find?
      (fun r => r.1 == u && r.2.1 == t)).map (fun r => r.2.2) = none
  rw [find?_filter_not]
  rfl

/-- A valid `dataType` is in particular nonempty. -/
theorem mem_valid_ne_empty {dt : String} (h : dt ∈ validDataTypes) :
    (dt == "") = false := by
  by_cases hd : dt = ""
  · subst hd; exact absurd h (by decide)
  · simp [hd]

/-- C1: with a current document present and `force = false`, Save returns
Conflict carrying the stored version, content and timestamp and leaves
the store untouched exactly when the stored version is strictly greater
than the supplied one; at the boundary where the stored version equals
the supplied version, Save does not return Conflict. -/
theorem save_conflict_strict_boundary (db : DB) (f : Failures) (u t dt : String)
    (c : Json) (v : Int) (now : Nat) (e : Doc)
    (ht : (t == "") = false) (hdt : dt ∈ validDataTypes)
    (hc : c.truthy = true) (he : findDoc db u t = some e) :
    (e.version > v →
      save db f u t dt (some c) v false now =
        (.conflict e.version e.content e.updated_at, db)) ∧
    (e.version = v →
      ∀ sv sd st, (save db f u t dt (some c) v false now).1 ≠ .conflict sv sd st) := by
  have hde := mem_valid_ne_empty hdt
  rcases f with ⟨fb, fd, fs⟩
  constructor
  · intro hgt
    simp [save, ht, hde, hc, hdt, he, hgt]
  · intro heq sv sd st
    cases fb <;> cases fd <;> cases fs <;>
      simp [save, ht, hde, hc, hdt, he, heq]

/-- C1 witness: on a store holding version 3, a save with version 2 and
`force = false` yields the Conflict payload and an unchanged store,
while a save with version 3 does not yield Conflict. -/
theorem save_conflict_strict_boundary_witness :
    save dbOne noFail "u1" "t1" "document" (some (.str "x")) 2 false 11 =
      (.conflict docA.version docA.content docA.updated_at, dbOne) ∧
    (save dbOne noFail "u1" "t1" "document" (some (.str "x")) 3 false 11).1 ≠
      .conflict 3 (.obj [("a", .num 1)]) 10 :=
  ⟨(save_conflict_strict_boundary dbOne noFail "u1" "t1" "document" (.str "x") 2 11 docA
      rfl (by decide) rfl rfl).1 (by decide),
   (save_conflict_strict_boundary dbOne noFail "u1" "t1" "document" (.str "x") 3 11 docA
      rfl (by decide) rfl rfl).2 rfl 3 (.obj [("a", .num 1)]) 10⟩

/-- C10: a Save whose `content` is supplied but Javascript-falsy, or whose
`threadId` is the empty string, is rejected as a missing-field validation
error and mutates nothing, because the presence check is truthiness. -/
theorem save_truthiness_validation (db : DB) (f : Failures) (u t dt : String)
    (c : Json) (v : Int) (force : Bool) (now : Nat) :
    (c.truthy = false →
      save db f u t dt (some c) v force now = (.missingFields, db)) ∧
    (∀ c' : Option Json,
      save db f u "" dt c' v force now = (.missingFields, db)) := by
  constructor
  · intro hc; simp [save, hc]
  · intro c'; simp [save]

/-- C10 witness: content `0` and an empty `threadId` are both rejected
without touching the store. -/
theorem save_truthiness_validation_witness :
    save dbOne noFail "u1" "t9" "document" (some (.num 0)) 1 false 5 =
      (.missingFields, dbOne) ∧
    save dbOne noFail "u1" "" "document" (some (.str "x")) 1 false 5 =
      (.missingFields, dbOne) :=
  ⟨(save_truthiness_validation dbOne noFail "u1" "t9" "document" (.num 0) 1 false 5).1 rfl,
   (save_truthiness_validation dbOne noFail "u1" "" "document" (.num 0) 1 false 5).2
      (some (.str "x"))⟩

/-- C7: for valid `dataType` values the Load result does not depend on
`dataType` at all, Load is NotFound exactly when no current row exists
for the `(user, thread)` key, and an invalid `dataType` yields the
validation error on every store whatsoever. -/
theorem load_dataType_independent (db : DB) (u t : String) :
    (∀ dt1 dt2, dt1 ∈ validDataTypes → dt2 ∈ validDataTypes →
      load db u t dt1 = load db u t dt2) ∧
    (∀ dt, dt ∈ validDataTypes →
      (load db u t dt = .notFound ↔ findDoc db u t = none)) ∧
    (∀ dt, dt ∉ validDataTypes →
      ∀ db' : DB, load db' u t dt = .invalidDataType) := by
  refine ⟨fun dt1 dt2 h1 h2 => ?_, fun dt h => ?_, fun dt h db' => ?_⟩
  · simp [load, h1, h2]
  · cases hfd : findDoc db u t <;> simp [load, h, hfd]
  · simp [load, h]

/-- C7 witness: on a store holding `("u1", "t1")`, loading with
`spreadsheet` and `both` agree, NotFound is equivalent to the key being
absent, and `invalid` is rejected. -/
theorem load_dataType_independent_witness :
    load dbOne "u1" "t1" "spreadsheet" = load dbOne "u1" "t1" "both" ∧
    (load dbOne "u1" "t1" "both" = .notFound ↔ findDoc dbOne "u1" "t1" = none) ∧
    load dbOne "u1" "t1" "invalid" = .invalidDataType :=
  ⟨(load_dataType_independent dbOne "u1" "t1").1 "spreadsheet" "both" (by decide) (by decide),
   (load_dataType_independent dbOne "u1" "t1").2.1 "both" (by decide),
   (load_dataType_independent dbOne "u1" "t1").2.2 "invalid" (by decide) dbOne⟩

/-- C9: History never fails with NotFound — its payload always carries the
current-row lookup as `current`, and on a thread with no document and no
backups it is success with `current = null` and an empty list. -/
theorem history_no_notFound (db : DB) (u t : String) (limit : Nat) :
    (history db u t limit).current = findDoc db u t ∧
    (findDoc db u t = none →
      db.data_backups.filter (fun b => b.user_id == u && b.thread_id == t) = [] →
      history db u t limit = ⟨none, []⟩) := by
  refine ⟨rfl, fun h1 h2 => ?_⟩
  simp [history, h1, h2, sortByCreatedDesc]

/-- C9 witness: on the empty store, History of an unknown thread returns
`current = null` and no backups. -/
theorem history_no_notFound_witness :
    (history dbEmpty "u9" "t9" 10).current = findDoc dbEmpty "u9" "t9" ∧
    history dbEmpty "u9" "t9" 10 = ⟨none, []⟩ :=
  ⟨(history_no_notFound dbEmpty "u9" "t9" 10).1,
   (history_no_notFound dbEmpty "u9" "t9" 10).2 rfl rfl⟩

/-- C8 counterexample: the Delete responses for a thread that existed and
for one that never existed are the same value — the response carries no
indicator of whether a row was removed, contrary to the claim. -/
theorem delete_response_indistinguishable :
    (deleteThread dbOne noFail "u1" "t1" 5).1 = (deleteThread dbEmpty noFail "u1" "t1" 5).1 ∧
    (findDoc dbOne "u1" "t1").isSome = true ∧
    (findDoc dbEmpty "u1" "t1").isSome = false :=
  ⟨rfl, rfl, rfl⟩

/-- C8 amended: Delete succeeds whether or not a current document exists
(deleting a nonexistent thread is not an error, and afterwards no row
exists for the key), but the response is the same constant success
payload in both cases; whether a row was removed is only logged, not
reported. -/
theorem delete_succeeds_without_report (db : DB) (u t : String) (now : Nat) :
    (deleteThread db noFail u t now).1 = .ok ∧
    findDoc (deleteThread db noFail u t now).2 u t = none := by
  cases hfd : findDoc db u t <;> simp [deleteThread, hfd, noFail]

/-- C5 counterexample: restoring backup 1 (stored version 1) onto an
existing current row writes version 2 to the document but reports
version 1 in the response — the reported version is not the version
written. -/
theorem restore_reported_vs_written :
    (restore dbRestore noFail "u1" "t1" (some 1) 9).1 = .ok 1 9 ∧
    (findDoc (restore dbRestore noFail "u1" "t1" (some 1) 9).2 "u1" "t1").map Doc.version =
      some 2 ∧
    (1 : Int) ≠ 2 :=
  ⟨rfl, rfl, by decide⟩

/-- C5 amended: the Restore response always reports the backup's stored
version; on the update branch the version actually written is the
backup's version plus one, so there the response understates the written
version by one. -/
theorem restore_reports_backup_version (db : DB) (u t : String) (bid : Nat) (now : Nat)
    (bk : Backup) (hbid : (bid == 0) = false)
    (hbk : db.data_backups.find? (fun b => b.id == bid && b.user_id == u) = some bk) :
    (restore db noFail u t (some bid) now).1 = .ok bk.version now ∧
    ((findDoc db u t).isSome = true →
      (findDoc (restore db noFail u t (some bid) now).2 u t).map Doc.version =
        some (bk.version + 1)) := by
  cases hfd : findDoc db u t <;> simp [restore, hbid, hbk, hfd, noFail]

/-- C5 amended witness: restoring backup 1 onto an existing row reports
version 1 while the written version is 2. -/
theorem restore_reports_backup_version_witness :
    (restore dbRestore noFail "u1" "t1" (some 1) 9).1 = .ok bkA.version 9 ∧
    (findDoc (restore dbRestore noFail "u1" "t1" (some 1) 9).2 "u1" "t1").map Doc.version =
      some (bkA.version + 1) :=
  ⟨(restore_reports_backup_version dbRestore "u1" "t1" 1 9 bkA rfl rfl).1,
   (restore_reports_backup_version dbRestore "u1" "t1" 1 9 bkA rfl rfl).2 rfl⟩

/-- C4: a Restore of a found backup writes the backup's version plus one
to the document when a current row existed for the key, and writes the
backup's version as-is when none existed. -/
theorem restore_version_asymmetry (db : DB) (u t : String) (bid : Nat) (now : Nat)
    (bk : Backup) (hbid : (bid == 0) = false)
    (hbk : db.data_backups.find? (fun b => b.id == bid && b.user_id == u) = some bk) :
    (∀ cur, findDoc db u t = some cur →
      findDoc (restore db noFail u t (some bid) now).2 u t =
        some ⟨bk.data_type, bk.content, bk.version + 1, now⟩) ∧
    (findDoc db u t = none →
      findDoc (restore db noFail u t (some bid) now).2 u t =
        some ⟨bk.data_type, bk.content, bk.version, now⟩) := by
  constructor
  · intro cur hfd; simp [restore, hbid, hbk, hfd, noFail]
  · intro hfd; simp [restore, hbid, hbk, hfd, noFail]

/-- C4 witness: restoring backup 1 (version 1) onto an existing row
writes version 2; restoring it onto an absent row writes version 1. -/
theorem restore_version_asymmetry_witness :
    findDoc (restore dbRestore noFail "u1" "t1" (some 1) 9).2 "u1" "t1" =
      some ⟨bkA.data_type, bkA.content, bkA.version + 1, 9⟩ ∧
    findDoc (restore dbRestoreEmpty noFail "u1" "t1" (some 1) 9).2 "u1" "t1" =
      some ⟨bkA.data_type, bkA.content, bkA.version, 9⟩ :=
  ⟨(restore_version_asymmetry dbRestore "u1" "t1" 1 9 bkA rfl rfl).1 docA rfl,
   (restore_version_asymmetry dbRestoreEmpty "u1" "t1" 1 9 bkA rfl rfl).2 rfl⟩

/-- C2 counterexample: with only the storage-stats statements failing, a
Save over an existing row returns the success response — the operation
does not fail — while the aborted transaction commits nothing, so even
the document upsert is silently lost. -/
theorem stats_failure_still_succeeds :
    save dbOne statsFail "u1" "t1" "document" (some (.str "x")) 5 false 11 =
      (.ok 5 11, dbOne) := rfl

@[simp]
theorem method_post_beq_get : (Method.POST == Method.GET) = false := rfl

@[simp]
theorem method_delete_beq_get : (Method.DELETE == Method.GET) = false := rfl

/-- C6 (code bug): because `GET /:threadId` is registered before
`GET /stats`, Express dispatches `GET /sync/stats` to the load handler
with `threadId = "stats"`, and no path at all reaches the statistics
handler — it is dead code. -/
theorem stats_route_shadowed :
    dispatch .GET ["stats"] = some .loadRoute ∧
    ∀ p : List String, dispatch .GET p ≠ some .statsRoute := by
  constructor
  · rfl
  · intro p
    match p with
    | [] => simp [dispatch, syncRouter, List.find?, matchSegs]
    | [a] => simp [dispatch, syncRouter, List.find?, matchSegs]
    | a :: b :: rest =>
      cases rest with
      | nil =>
        by_cases hb : b = "history"
        · simp [dispatch, syncRouter, List.find?, matchSegs, hb]
        · have hb1 : ("history" == b) = false :=
            beq_eq_false_iff_ne.mpr fun h => hb h.symm
          simp [dispatch, syncRouter, List.find?, matchSegs, hb1]
      | cons c cs =>
        simp [dispatch, syncRouter, List.find?, matchSegs]

/-- A failure configuration where only the backup insert fails. -/
def bkFail : Failures := ⟨true, false, false⟩

/-- Save is all-or-nothing over the store: under any failure
configuration the final state is either the untouched initial state or
the state of a fully successful run; a server error leaves the state
untouched; and a stats-only failure leaves the state untouched while
producing the same response as a fully successful run. -/
theorem save_all_or_nothing (db : DB) (f : Failures) (u t dt : String)
    (c : Option Json) (v : Int) (force : Bool) (now : Nat) :
    ((save db f u t dt c v force now).2 = db ∨
      (save db f u t dt c v force now).2 = (save db noFail u t dt c v force now).2) ∧
    ((save db f u t dt c v force now).1 = .serverError →
      (save db f u t dt c v force now).2 = db) ∧
    (f.stats = true → f.backupInsert = false → f.docWrite = false →
      (save db f u t dt c v force now).1 = (save db noFail u t dt c v force now).1 ∧
      (save db f u t dt c v force now).2 = db) := by
  rcases f with ⟨fb, fd, fs⟩
  by_cases h1 : (t == "" || dt == "" || !((c.map Json.truthy).getD false)) = true
  · simp [save, h1]
  · rw [Bool.not_eq_true] at h1
    by_cases h2 : dt ∈ validDataTypes
    · cases hfd : findDoc db u t with
      | none =>
        cases fb <;> cases fd <;> cases fs <;> simp [save, h1, h2, hfd, noFail]
      | some e =>
        by_cases h3 : (!force && decide (e.version > v)) = true
        · cases fb <;> cases fd <;> cases fs <;> simp [save, h1, h2, hfd, h3, noFail]
        · rw [Bool.not_eq_true] at h3
          cases fb <;> cases fd <;> cases fs <;> simp [save, h1, h2, hfd, h3, noFail]
    · simp [save, h1, h2]

/-- Restore is all-or-nothing over the store, with the same three
properties as `save_all_or_nothing`. -/
theorem restore_all_or_nothing (db : DB) (f : Failures) (u t : String)
    (bid : Option Nat) (now : Nat) :
    ((restore db f u t bid now).2 = db ∨
      (restore db f u t bid now).2 = (restore db noFail u t bid now).2) ∧
    ((restore db f u t bid now).1 = .serverError →
      (restore db f u t bid now).2 = db) ∧
    (f.stats = true → f.backupInsert = false → f.docWrite = false →
      (restore db f u t bid now).1 = (restore db noFail u t bid now).1 ∧
      (restore db f u t bid now).2 = db) := by
  rcases f with ⟨fb, fd, fs⟩
  cases bid with
  | none => simp [restore]
  | some n =>
    by_cases h0 : (n == 0) = true
    · simp [restore, h0]
    · rw [Bool.not_eq_true] at h0
      cases hbk : db.data_backups.find? (fun b => b.id == n && b.user_id == u) with
      | none => simp [restore, h0, hbk]
      | some bk =>
        cases hfd : findDoc db u t with
        | none =>
          cases fb <;> cases fd <;> cases fs <;> simp [restore, h0, hbk, hfd, noFail]
        | some cur =>
          cases fb <;> cases fd <;> cases fs <;> simp [restore, h0, hbk, hfd, noFail]

/-- Delete is all-or-nothing over the store, with the same three
properties as `save_all_or_nothing`. -/
theorem delete_all_or_nothing (db : DB) (f : Failures) (u t : String) (now : Nat) :
    ((deleteThread db f u t now).2 = db ∨
      (deleteThread db f u t now).2 = (deleteThread db noFail u t now).2) ∧
    ((deleteThread db f u t now).1 = .serverError →
      (deleteThread db f u t now).2 = db) ∧
    (f.stats = true → f.backupInsert = false → f.docWrite = false →
      (deleteThread db f u t now).1 = (deleteThread db noFail u t now).1 ∧
      (deleteThread db f u t now).2 = db) := by
  rcases f with ⟨fb, fd, fs⟩
  cases hfd : findDoc db u t with
  | none => cases fb <;> cases fd <;> cases fs <;> simp [deleteThread, hfd, noFail]
  | some cur => cases fb <;> cases fd <;> cases fs <;> simp [deleteThread, hfd, noFail]

/-- C2 amended: Save, Restore and Delete never leave a partial state — a
failure of the backup insert or of the document write raises a server
error with the state untouched, and even a failure inside the
storage-stats recomputation commits nothing; but the stats failure is
caught inside `updateStorageStats` rather than failing the operation, so
the handler returns the success response of a full run while the aborted
transaction leaves the store untouched. -/
theorem tri_write_atomicity (db : DB) (f : Failures) (u t dt : String)
    (c : Option Json) (v : Int) (force : Bool) (bid : Option Nat) (now : Nat) :
    (((save db f u t dt c v force now).2 = db ∨
        (save db f u t dt c v force now).2 = (save db noFail u t dt c v force now).2) ∧
      ((save db f u t dt c v force now).1 = .serverError →
        (save db f u t dt c v force now).2 = db) ∧
      (f.stats = true → f.backupInsert = false → f.docWrite = false →
        (save db f u t dt c v force now).1 = (save db noFail u t dt c v force now).1 ∧
        (save db f u t dt c v force now).2 = db)) ∧
    (((restore db f u t bid now).2 = db ∨
        (restore db f u t bid now).2 = (restore db noFail u t bid now).2) ∧
      ((restore db f u t bid now).1 = .serverError →
        (restore db f u t bid now).2 = db) ∧
      (f.stats = true → f.backupInsert = false → f.docWrite = false →
        (restore db f u t bid now).1 = (restore db noFail u t bid now).1 ∧
        (restore db f u t bid now).2 = db)) ∧
    (((deleteThread db f u t now).2 = db ∨
        (deleteThread db f u t now).2 = (deleteThread db noFail u t now).2) ∧
      ((deleteThread db f u t now).1 = .serverError →
        (deleteThread db f u t now).2 = db) ∧
      (f.stats = true → f.backupInsert = false → f.docWrite = false →
        (deleteThread db f u t now).1 = (deleteThread db noFail u t now).1 ∧
        (deleteThread db f u t now).2 = db)) :=
  ⟨save_all_or_nothing db f u t dt c v force now,
   restore_all_or_nothing db f u t bid now,
   delete_all_or_nothing db f u t now⟩

/-- C2 amended witness: on concrete stores, a stats-only failure gives
each of Save, Restore and Delete the same response as a fully successful
run while leaving the store untouched, and a backup-insert failure makes
Save fail with the store untouched. -/
theorem tri_write_atomicity_witness :
    ((save dbOne statsFail "u1" "t1" "document" (some (.str "x")) 5 false 11).1 =
        (save dbOne noFail "u1" "t1" "document" (some (.str "x")) 5 false 11).1 ∧
      (save dbOne statsFail "u1" "t1" "document" (some (.str "x")) 5 false 11).2 = dbOne) ∧
    ((restore dbRestore statsFail "u1" "t1" (some 1) 9).1 =
        (restore dbRestore noFail "u1" "t1" (some 1) 9).1 ∧
      (restore dbRestore statsFail "u1" "t1" (some 1) 9).2 = dbRestore) ∧
    ((deleteThread dbOne statsFail "u1" "t1" 5).1 =
        (deleteThread dbOne noFail "u1" "t1" 5).1 ∧
      (deleteThread dbOne statsFail "u1" "t1" 5).2 = dbOne) ∧
    (save dbOne bkFail "u1" "t1" "document" (some (.str "x")) 5 false 11).2 = dbOne :=
  ⟨(tri_write_atomicity dbOne statsFail "u1" "t1" "document" (some (.str "x")) 5 false
      (some 1) 11).1.2.2 rfl rfl rfl,
   (tri_write_atomicity dbRestore statsFail "u1" "t1" "document" (some (.str "x")) 5 false
      (some 1) 9).2.1.2.2 rfl rfl rfl,
   (tri_write_atomicity dbOne statsFail "u1" "t1" "document" (some (.str "x")) 5 false
      (some 1) 5).2.2.2.2 rfl rfl rfl,
   (tri_write_atomicity dbOne bkFail "u1" "t1" "document" (some (.str "x")) 5 false
      (some 1) 11).1.2.1 rfl⟩

/-- Arguments of one Save call in a sequence of calls that share a single
`(user, thread)` key. -/
structure SaveCall where
  dataType : String
  content : Json
  version : Int
  force : Bool
  now : Nat

/-- The document row a successful Save call writes. -/
def callDoc (c : SaveCall) : Doc := ⟨c.dataType, c.content, c.version, c.now⟩

/-- Fold a list of Save calls, every statement succeeding, over the store. -/
def runSaves (db : DB) (u t : String) (calls : List SaveCall) : DB :=
  calls.foldl
    (fun d c => (save d noFail u t c.dataType (some c.content) c.version c.force c.now).2) db

/-- The backup rows snapshotting a list of overwritten document states,
with consecutive ids starting at `startId`; Save records the overwritten
row's `updated_at` as the backup's `created_at`. -/
def docBackups (u t : String) (startId : Nat) : List Doc → List Backup
  | [] => []
  | d :: ds => ⟨startId, u, t, d.data_type, d.content, d.version, d.updated_at⟩ ::
      docBackups u t (startId + 1) ds

/-- A well-formed call: valid `dataType` and truthy content. -/
def validCall (c : SaveCall) : Bool :=
  decide (c.dataType ∈ validDataTypes) && c.content.truthy

/-- Starting from stored version `v`, every call either forces or
supplies a version at least the one stored when it runs (so none hits
the strict conflict check). -/
def okSeqFrom (v : Int) : List SaveCall → Bool
  | [] => true
  | c :: cs => (c.force || decide (v ≤ c.version)) && okSeqFrom c.version cs

/-- Non-decreasing versions (or `force`) for a sequence run against an
initially absent document; the first call is unconstrained. -/
def saveSeqOk : List SaveCall → Bool
  | [] => true
  | c :: cs => okSeqFrom c.version cs

/-- Unfolding `runSaves` one call at a time. -/
theorem runSaves_cons (db : DB) (u t : String) (c : SaveCall) (cs : List SaveCall) :
    runSaves db u t (c :: cs) =
      runSaves ((save db noFail u t c.dataType (some c.content) c.version c.force c.now).2)
        u t cs := rfl

/-- A fully successful Save onto an absent key inserts no backup and
writes the document. -/
theorem save_step_create (db : DB) (u t dt : String) (c : Json) (v : Int) (force : Bool)
    (now : Nat) (ht : (t == "") = false) (hdt : dt ∈ validDataTypes)
    (hc : c.truthy = true) (hnone : findDoc db u t = none) :
    save db noFail u t dt (some c) v force now =
      (.ok v now, updateStats (setDoc db u t ⟨dt, c, v, now⟩) u now) := by
  simp [save, ht, mem_valid_ne_empty hdt, hdt, hc, hnone, noFail]

/-- A fully successful non-conflicting Save over an existing row inserts
exactly one backup of that row, then overwrites it. -/
theorem save_step_update (db : DB) (u t dt : String) (c : Json) (v : Int) (force : Bool)
    (now : Nat) (e : Doc) (ht : (t == "") = false) (hdt : dt ∈ validDataTypes)
    (hc : c.truthy = true) (he : findDoc db u t = some e)
    (hnc : (force || decide (e.version ≤ v)) = true) :
    save db noFail u t dt (some c) v force now =
      (.ok v now,
        updateStats (setDoc (addBackup db u t e.data_type e.content e.version e.updated_at)
          u t ⟨dt, c, v, now⟩) u now) := by
  have hcc : (!force && decide (e.version > v)) = false := by
    cases force with
    | true => rfl
    | false =>
      simp only [Bool.false_or] at hnc
      simp only [Bool.not_false, Bool.true_and]
      exact decide_eq_false (not_lt.mpr (of_decide_eq_true hnc))
  simp [save, ht, mem_valid_ne_empty hdt, hdt, hc, he, hcc, noFail]

/-- Invariant of a run of well-formed, never-conflicting Save calls over
a present document: the final row is the last written document, and the
backups grow by exactly one snapshot per overwritten state, in order. -/
theorem runSaves_present (u t : String) (ht : (t == "") = false) :
    ∀ (calls : List SaveCall) (db : DB) (d : Doc),
      findDoc db u t = some d →
      (∀ c ∈ calls, validCall c = true) →
      okSeqFrom d.version calls = true →
      findDoc (runSaves db u t calls) u t = some ((calls.map callDoc).getLastD d) ∧
      (runSaves db u t calls).data_backups =
        db.data_backups ++ docBackups u t db.nextBackupId ((d :: calls.map callDoc).dropLast) ∧
      (runSaves db u t calls).nextBackupId = db.nextBackupId + calls.length := by
  intro calls
  induction calls with
  | nil =>
    intro db d hd _ _
    simp [runSaves, hd, docBackups]
  | cons c cs ih =>
    intro db d hd hv hseq
    have hvc : decide (c.dataType ∈ validDataTypes) = true ∧ c.content.truthy = true := by
      have h := hv c (List.mem_cons_self c cs)
      simp only [validCall, Bool.and_eq_true] at h
      exact h
    have hdt : c.dataType ∈ validDataTypes := of_decide_eq_true hvc.1
    have hseq2 : (c.force || decide (d.version ≤ c.version)) = true ∧
        okSeqFrom c.version cs = true := by
      simp only [okSeqFrom, Bool.and_eq_true] at hseq
      exact hseq
    have hstep := save_step_update db u t c.dataType c.content c.version c.force c.now d
      ht hdt hvc.2 hd hseq2.1
    have hdb1 : (save db noFail u t c.dataType (some c.content) c.version c.force c.now).2 =
        updateStats (setDoc (addBackup db u t d.data_type d.content d.version d.updated_at)
          u t (callDoc c)) u c.now := by
      rw [hstep]; rfl
    rw [runSaves_cons, hdb1]
    have hih := ih
      (updateStats (setDoc (addBackup db u t d.data_type d.content d.version d.updated_at)
        u t (callDoc c)) u c.now)
      (callDoc c) (by simp) (fun x hx => hv x (List.mem_cons_of_mem c hx)) hseq2.2
    rcases hih with ⟨hfinal, hbk, hnext⟩
    refine ⟨?_, ?_, ?_⟩
    · rw [hfinal, List.map_cons, List.getLastD_cons]
    · rw [hbk]
      simp only [updateStats_data_backups, setDoc_data_backups, addBackup_data_backups,
        updateStats_nextBackupId, setDoc_nextBackupId, addBackup_nextBackupId,
        List.map_cons, List.dropLast_cons₂, docBackups, List.append_assoc,
        List.cons_append, List.nil_append]
    · rw [hnext]
      simp only [updateStats_nextBackupId, setDoc_nextBackupId, addBackup_nextBackupId,
        List.length_cons]
      omega

/-- C3: a run of well-formed Save calls with non-decreasing versions (or
`force`) against an initially absent `(user, thread)` key ends with the
last call's document stored and with exactly one new backup per
overwritten prior state, in order, and none for the very first creation;
moreover Restore onto an existing row and Delete of an existing row each
insert exactly one backup capturing the overwritten state, and Delete of
an absent row inserts none. -/
theorem backup_undo_log (db : DB) (u t : String) (calls : List SaveCall)
    (db2 : DB) (cur : Doc) (bid : Nat) (bk : Backup) (db3 : DB) (cur3 : Doc) (db4 : DB)
    (now : Nat)
    (ht : (t == "") = false)
    (hnone : findDoc db u t = none)
    (hvalid : ∀ c ∈ calls, validCall c = true)
    (hseq : saveSeqOk calls = true)
    (hcur : findDoc db2 u t = some cur)
    (hbid : (bid == 0) = false)
    (hbk : db2.data_backups.find? (fun b => b.id == bid && b.user_id == u) = some bk)
    (hcur3 : findDoc db3 u t = some cur3)
    (hnone4 : findDoc db4 u t = none) :
    (calls = [] → runSaves db u t calls = db) ∧
    (∀ c0 cs, calls = c0 :: cs →
      findDoc (runSaves db u t calls) u t =
        some ((calls.map callDoc).getLastD (callDoc c0)) ∧
      (runSaves db u t calls).data_backups =
        db.data_backups ++ docBackups u t db.nextBackupId ((calls.map callDoc).dropLast)) ∧
    (restore db2 noFail u t (some bid) now).2.data_backups =
      db2.data_backups ++
        [⟨db2.nextBackupId, u, t, cur.data_type, cur.content, cur.version, now⟩] ∧
    (deleteThread db3 noFail u t now).2.data_backups =
      db3.data_backups ++
        [⟨db3.nextBackupId, u, t, cur3.data_type, cur3.content, cur3.version, now⟩] ∧
    (deleteThread db4 noFail u t now).2.data_backups = db4.data_backups := by
  refine ⟨fun hc => by subst hc; rfl, fun c0 cs hc => ?_, ?_, ?_, ?_⟩
  · subst hc
    have hvc : decide (c0.dataType ∈ validDataTypes) = true ∧
        c0.content.truthy = true := by
      have h := hvalid c0 (List.mem_cons_self c0 cs)
      simp only [validCall, Bool.and_eq_true] at h
      exact h
    have hdt : c0.dataType ∈ validDataTypes := of_decide_eq_true hvc.1
    have hstep := save_step_create db u t c0.dataType c0.content c0.version c0.force c0.now
      ht hdt hvc.2 hnone
    have hdb1 : (save db noFail u t c0.dataType (some c0.content) c0.version c0.force c0.now).2 =
        updateStats (setDoc db u t (callDoc c0)) u c0.now := by
      rw [hstep]; rfl
    rw [runSaves_cons, hdb1]
    have hih := runSaves_present u t ht cs
      (updateStats (setDoc db u t (callDoc c0)) u c0.now) (callDoc c0)
      (by simp) (fun x hx => hvalid x (List.mem_cons_of_mem c0 hx)) hseq
    rcases hih with ⟨hfinal, hbks, _⟩
    refine ⟨?_, ?_⟩
    · rw [hfinal, List.map_cons, List.getLastD_cons]
    · rw [hbks]
      simp
  · simp [restore, hbid, hbk, hcur, noFail]
  · simp [deleteThread, hcur3, noFail]
  · simp [deleteThread, hnone4, noFail]

/-- A first sample Save call writing version 1. -/
def cA : SaveCall := ⟨"document", .str "a", 1, false, 1⟩

/-- A second sample Save call writing version 2. -/
def cB : SaveCall := ⟨"document", .str "b", 2, false, 2⟩

/-- C3 witness: two Saves on an empty store end with the second call's
document and exactly one backup (of the first call's state); on concrete
stores, Restore and Delete over an existing row add exactly one backup,
and Delete of an absent row adds none. -/
theorem backup_undo_log_witness :
    findDoc (runSaves dbEmpty "u1" "t1" [cA, cB]) "u1" "t1" =
      some (([cA, cB].map callDoc).getLastD (callDoc cA)) ∧
    (runSaves dbEmpty "u1" "t1" [cA, cB]).data_backups =
      dbEmpty.data_backups ++
        docBackups "u1" "t1" dbEmpty.nextBackupId (([cA, cB].map callDoc).dropLast) ∧
    (restore dbRestore noFail "u1" "t1" (some 1) 9).2.data_backups =
      dbRestore.data_backups ++
        [⟨dbRestore.nextBackupId, "u1", "t1", docA.data_type, docA.content, docA.version, 9⟩] ∧
    (deleteThread dbOne noFail "u1" "t1" 9).2.data_backups =
      dbOne.data_backups ++
        [⟨dbOne.nextBackupId, "u1", "t1", docA.data_type, docA.content, docA.version, 9⟩] ∧
    (deleteThread dbEmpty noFail "u1" "t1" 9).2.data_backups = dbEmpty.data_backups := by
  have h := backup_undo_log dbEmpty "u1" "t1" [cA, cB] dbRestore docA 1 bkA dbOne docA
    dbEmpty 9 rfl rfl
    (by intro x hx
        rcases List.mem_cons.mp hx with h1 | h1
        · subst h1; rfl
        · rcases List.mem_cons.mp h1 with h2 | h2
          · subst h2; rfl
          · exact absurd h2 (List.not_mem_nil x))
    rfl rfl rfl rfl rfl rfl
  rcases h with ⟨_, h2, h3, h4, h5⟩
  rcases h2 cA [cB] rfl with ⟨h2a, h2b⟩
  exact ⟨h2a, h2b, h3, h4, h5⟩

end ElEditor
